import Mathlib

/-!
Shallow embedding of the subspace repository's runtime-upgrade registry
(crates/pallet-domains/src/runtime_registry.rs) and domain block builder
(domains/client/block-builder/src/lib.rs), together with theorems settling
the specification claims about them.

External collaborators (SCALE decoding of a raw genesis, the host call that
extracts a RuntimeVersion from runtime code, the hashing function, and the
runtime API driven by the block builder) are modelled as oracle functions
supplied through an environment record; the pallet storage items
(NextRuntimeId, RuntimeRegistry, ScheduledRuntimeUpgrades, the digest log
and the event queue of frame_system) are modelled as an explicit state
record threaded through the translated functions.
-/

/-- Runtime specific errors, from enum Error in runtime_registry.rs. -/
inductive RegistryError where
  | FailedToExtractRuntimeVersion
  | InvalidSpecName
  | SpecVersionNeedsToIncrease
  | MaxRuntimeId
  | MissingRuntimeObject
  | RuntimeUpgradeAlreadyScheduled
  | MaxScheduledBlockNumber
  | FailedToDecodeRawGenesis
  | RuntimeCodeNotFoundInRawGenesis
deriving DecidableEq, Repr

/-- sp_version RuntimeVersion, restricted to the fields the registry logic
reads (spec_name, spec_version) plus the other scalar fields carried along;
the apis list is irrelevant to every claim and omitted. -/
structure RuntimeVersion where
  spec_name : String
  spec_version : Nat
  impl_version : Nat
  transaction_version : Nat
  authoring_version : Nat
  state_version : Nat
deriving DecidableEq, Repr

/-- sp_domains RawGenesis: an opaque storage container from which
get_runtime_code may extract the embedded runtime code. The remaining
key/value content is abstracted as an opaque tag so that distinct genesis
blobs stay distinguishable. -/
structure RawGenesis where
  runtimeCode : Option (List Nat)
  otherStorage : Nat
deriving DecidableEq, Repr

/-- sp_domains RuntimeType. -/
inductive RuntimeType where
  | Evm
deriving DecidableEq, Repr

/-- RuntimeObject from runtime_registry.rs. Block numbers and hashes are
modelled as Nat. -/
structure RuntimeObject where
  runtime_name : String
  runtime_type : RuntimeType
  runtime_upgrades : Nat
  hash : Nat
  raw_genesis : RawGenesis
  version : RuntimeVersion
  created_at : Nat
  updated_at : Nat
deriving DecidableEq, Repr

/-- ScheduledRuntimeUpgrade from runtime_registry.rs. -/
structure ScheduledRuntimeUpgrade where
  raw_genesis : RawGenesis
  version : RuntimeVersion
  hash : Nat
deriving DecidableEq, Repr

/-- Environment of external collaborators: SCALE decode of a raw genesis
blob, the sp_io host call extracting a RuntimeVersion from code, the
configured hasher, the DomainRuntimeUpgradeDelay constant, and the largest
value of the block-number type (checked_add on block numbers fails exactly
when the sum exceeds it). -/
structure Env where
  decodeRawGenesis : List Nat → Option RawGenesis
  runtimeVersionOf : List Nat → Option RuntimeVersion
  hashOf : List Nat → Nat
  domainRuntimeUpgradeDelay : Nat
  blockNumberMax : Nat

/-- Largest value of the u32 RuntimeId type. -/
def u32Max : Nat := 2 ^ 32 - 1

/-- checked_add of a bounded unsigned integer type whose largest value is
maxVal: some (a + b) unless the sum overflows. -/
def checked_add (maxVal a b : Nat) : Option Nat :=
  if a + b ≤ maxVal then some (a + b) else none

/-- Pallet storage touched by the registry functions: the NextRuntimeId
counter, the RuntimeRegistry map, the ScheduledRuntimeUpgrades double map
keyed by (scheduled block number, runtime id) kept as an explicit list so
that drain order is concrete, frame_system digest logs and deposited
events (each recorded by the runtime id it carries). -/
structure RegistryState where
  nextRuntimeId : Nat
  runtimeRegistry : Nat → Option RuntimeObject
  scheduledRuntimeUpgrades : List ((Nat × Nat) × ScheduledRuntimeUpgrade)
  digestLogs : List Nat
  events : List Nat

/-- Point update of the RuntimeRegistry map. -/
def updateReg (f : Nat → Option RuntimeObject) (k : Nat) (v : Option RuntimeObject) :
    Nat → Option RuntimeObject :=
  fun x => if x = k then v else f x

/-- Insert into the ScheduledRuntimeUpgrades map: replace the entry with the
same key if present, otherwise add the entry. -/
def insertSched (k : Nat × Nat) (v : ScheduledRuntimeUpgrade) :
    List ((Nat × Nat) × ScheduledRuntimeUpgrade) → List ((Nat × Nat) × ScheduledRuntimeUpgrade)
  | [] => [(k, v)]
  | (k₁, v₁) :: rest => if k₁ = k then (k, v) :: rest else (k₁, v₁) :: insertSched k v rest

/-- Lookup in the ScheduledRuntimeUpgrades map. -/
def lookupSched (k : Nat × Nat) :
    List ((Nat × Nat) × ScheduledRuntimeUpgrade) → Option ScheduledRuntimeUpgrade
  | [] => none
  | (k₁, v₁) :: rest => if k₁ = k then some v₁ else lookupSched k rest

/-- runtime_version from runtime_registry.rs: ask the host for the version
of the provided code, failing with FailedToExtractRuntimeVersion when it
cannot be determined. -/
def runtime_version (env : Env) (code : List Nat) : Except RegistryError RuntimeVersion :=
  match env.runtimeVersionOf code with
  | some v => .ok v
  | none => .error RegistryError.FailedToExtractRuntimeVersion

/-- can_upgrade_code from runtime_registry.rs: extract the new version and
validate it against the current version. -/
def can_upgrade_code (env : Env) (current_version : RuntimeVersion) (update_code : List Nat) :
    Except RegistryError RuntimeVersion :=
  match runtime_version env update_code with
  | .error e => .error e
  | .ok new_version =>
    if new_version.spec_name ≠ current_version.spec_name then
      .error RegistryError.InvalidSpecName
    else if new_version.spec_version ≤ current_version.spec_version then
      .error RegistryError.SpecVersionNeedsToIncrease
    else
      .ok new_version

/-- do_register_runtime from runtime_registry.rs. Note the source inserts
the new RuntimeObject into RuntimeRegistry before performing the
checked_add on the runtime id, so on id overflow the function returns
MaxRuntimeId with the object already inserted and NextRuntimeId unchanged. -/
def do_register_runtime (env : Env) (s : RegistryState) (runtime_name : String)
    (runtime_type : RuntimeType) (raw_genesis_storage : List Nat) (at_ : Nat) :
    RegistryState × Except RegistryError Nat :=
  match env.decodeRawGenesis raw_genesis_storage with
  | none => (s, .error RegistryError.FailedToDecodeRawGenesis)
  | some raw_genesis =>
    match raw_genesis.runtimeCode with
    | none => (s, .error RegistryError.RuntimeCodeNotFoundInRawGenesis)
    | some code =>
      match env.runtimeVersionOf code with
      | none => (s, .error RegistryError.FailedToExtractRuntimeVersion)
      | some version =>
        let runtime_hash := env.hashOf code
        let runtime_id := s.nextRuntimeId
        let s₁ : RegistryState :=
          { s with runtimeRegistry := updateReg s.runtimeRegistry runtime_id (some
              { runtime_name := runtime_name
                runtime_type := runtime_type
                hash := runtime_hash
                raw_genesis := raw_genesis
                version := version
                created_at := at_
                updated_at := at_
                runtime_upgrades := 0 }) }
        match checked_add u32Max runtime_id 1 with
        | none => (s₁, .error RegistryError.MaxRuntimeId)
        | some next_runtime_id => ({ s₁ with nextRuntimeId := next_runtime_id }, .ok runtime_id)

/-- do_schedule_runtime_upgrade from runtime_registry.rs. -/
def do_schedule_runtime_upgrade (env : Env) (s : RegistryState) (runtime_id : Nat)
    (raw_genesis_storage : List Nat) (current_block_number : Nat) :
    RegistryState × Except RegistryError Nat :=
  match s.runtimeRegistry runtime_id with
  | none => (s, .error RegistryError.MissingRuntimeObject)
  | some runtime_obj =>
    match env.decodeRawGenesis raw_genesis_storage with
    | none => (s, .error RegistryError.FailedToDecodeRawGenesis)
    | some new_raw_genesis =>
      match new_raw_genesis.runtimeCode with
      | none => (s, .error RegistryError.RuntimeCodeNotFoundInRawGenesis)
      | some new_code =>
        match can_upgrade_code env runtime_obj.version new_code with
        | .error e => (s, .error e)
        | .ok new_runtime_version =>
          let new_runtime_hash := env.hashOf new_code
          let scheduled_upgrade : ScheduledRuntimeUpgrade :=
            { raw_genesis := new_raw_genesis
              version := new_runtime_version
              hash := new_runtime_hash }
          match checked_add env.blockNumberMax current_block_number
              env.domainRuntimeUpgradeDelay with
          | none => (s, .error RegistryError.MaxScheduledBlockNumber)
          | some scheduled_at =>
            let sch := insertSched (scheduled_at, runtime_id) scheduled_upgrade
              s.scheduledRuntimeUpgrades
            ({ s with scheduledRuntimeUpgrades := sch }, .ok scheduled_at)

/-- Entries of ScheduledRuntimeUpgrades drained by drain_prefix at a given
block number, in map order, with the first key component stripped. -/
def drainedAt (at_ : Nat) (sch : List ((Nat × Nat) × ScheduledRuntimeUpgrade)) :
    List (Nat × ScheduledRuntimeUpgrade) :=
  (sch.filter (fun e => e.1.1 = at_)).map (fun e => (e.1.2, e.2))

/-- Entries of ScheduledRuntimeUpgrades left behind by drain_prefix at a
given block number. -/
def remainingAt (at_ : Nat) (sch : List ((Nat × Nat) × ScheduledRuntimeUpgrade)) :
    List ((Nat × Nat) × ScheduledRuntimeUpgrade) :=
  sch.filter (fun e => ¬ e.1.1 = at_)

/-- The RuntimeObject field updates performed by the mutate closure in
do_upgrade_runtimes: the raw genesis, version and hash are replaced by the
scheduled values, runtime_upgrades is bumped with saturating_add 1 on u32,
and updated_at becomes the activation block number. -/
def upgradeObj (obj : RuntimeObject) (upd : ScheduledRuntimeUpgrade) (at_ : Nat) :
    RuntimeObject :=
  { obj with
    raw_genesis := upd.raw_genesis
    version := upd.version
    hash := upd.hash
    runtime_upgrades := min (obj.runtime_upgrades + 1) u32Max
    updated_at := at_ }

/-- One iteration of the loop body of do_upgrade_runtimes: mutate the
RuntimeRegistry entry (the source .expect panics when the object is
missing, modelled as none), then deposit one digest log and one event
carrying the runtime id. -/
def applyScheduled (at_ : Nat) (s : RegistryState) (e : Nat × ScheduledRuntimeUpgrade) :
    Option RegistryState :=
  match s.runtimeRegistry e.1 with
  | none => none
  | some obj =>
    some { s with
      runtimeRegistry := updateReg s.runtimeRegistry e.1 (some (upgradeObj obj e.2 at_))
      digestLogs := s.digestLogs ++ [e.1]
      events := s.events ++ [e.1] }

/-- The loop of do_upgrade_runtimes over the drained entries. -/
def applyAllScheduled (at_ : Nat) :
    RegistryState → List (Nat × ScheduledRuntimeUpgrade) → Option RegistryState
  | s, [] => some s
  | s, e :: rest =>
    match applyScheduled at_ s e with
    | none => none
    | some s₁ => applyAllScheduled at_ s₁ rest

/-- do_upgrade_runtimes from runtime_registry.rs: drain every scheduled
upgrade keyed at the given block number and fold each one into its
RuntimeObject, emitting a digest log and an event per drained entry. The
result is none exactly when the source would panic on a missing
RuntimeObject. -/
def do_upgrade_runtimes (s : RegistryState) (at_ : Nat) : Option RegistryState :=
  applyAllScheduled at_
    { s with scheduledRuntimeUpgrades := remainingAt at_ s.scheduledRuntimeUpgrades }
    (drainedAt at_ s.scheduledRuntimeUpgrades)

/-- A version record with the given spec name and spec version. -/
def mkVer (n : String) (sv : Nat) : RuntimeVersion :=
  { spec_name := n, spec_version := sv, impl_version := 1, transaction_version := 1,
    authoring_version := 0, state_version := 0 }

/-- Genesis blob embedding code [11]. -/
def genA : RawGenesis := { runtimeCode := some [11], otherStorage := 1 }

/-- Genesis blob embedding code [12]. -/
def genB : RawGenesis := { runtimeCode := some [12], otherStorage := 2 }

/-- Genesis blob embedding code [13]. -/
def genC : RawGenesis := { runtimeCode := some [13], otherStorage := 3 }

/-- Genesis blob embedding code [14]. -/
def genD : RawGenesis := { runtimeCode := some [14], otherStorage := 4 }

/-- Concrete environment: byte blobs [1]..[4] decode to genA..genD, codes
[11]..[14] carry versions (test,3), (test,2), (other,1), (test,1), the hash
is the sum of the code bytes, the upgrade delay is 10 blocks and block
numbers are u64. -/
def envA : Env :=
  { decodeRawGenesis := fun b =>
      if b = [1] then some genA else if b = [2] then some genB
      else if b = [3] then some genC else if b = [4] then some genD else none
    runtimeVersionOf := fun c =>
      if c = [11] then some (mkVer "test" 3) else if c = [12] then some (mkVer "test" 2)
      else if c = [13] then some (mkVer "other" 1) else if c = [14] then some (mkVer "test" 1)
      else none
    hashOf := fun c => c.foldl (· + ·) 0
    domainRuntimeUpgradeDelay := 10
    blockNumberMax := 2 ^ 64 - 1 }

/-- A registered runtime object at spec version (test,1). -/
def objT1 : RuntimeObject :=
  { runtime_name := "evm", runtime_type := RuntimeType.Evm, runtime_upgrades := 0,
    hash := 7, raw_genesis := { runtimeCode := some [10], otherStorage := 0 },
    version := mkVer "test" 1, created_at := 0, updated_at := 0 }

/-- A registry state holding objT1 under runtime id 0. -/
def regT1 : RegistryState :=
  { nextRuntimeId := 1, runtimeRegistry := updateReg (fun _ => none) 0 (some objT1),
    scheduledRuntimeUpgrades := [], digestLogs := [], events := [] }

/-- The state produced by a successful do_schedule_runtime_upgrade: the
scheduled upgrade inserted under its (activation height, runtime id) key. -/
def schedInsertState (s : RegistryState) (k : Nat × Nat) (u : ScheduledRuntimeUpgrade) :
    RegistryState :=
  { s with scheduledRuntimeUpgrades := insertSched k u s.scheduledRuntimeUpgrades }

/-- The state produced by a successful do_register_runtime: the new object
stored under the allocated id and NextRuntimeId advanced by one. -/
def registerSuccessState (env : Env) (s : RegistryState) (runtime_name : String)
    (runtime_type : RuntimeType) (g : RawGenesis) (code : List Nat) (v : RuntimeVersion)
    (at_ : Nat) : RegistryState :=
  { s with
    runtimeRegistry := updateReg s.runtimeRegistry s.nextRuntimeId (some
      { runtime_name := runtime_name, runtime_type := runtime_type, runtime_upgrades := 0,
        hash := env.hashOf code, raw_genesis := g, version := v,
        created_at := at_, updated_at := at_ })
    nextRuntimeId := s.nextRuntimeId + 1 }

/-- A second registered runtime object, under runtime id 1. -/
def objU1 : RuntimeObject :=
  { runtime_name := "auto", runtime_type := RuntimeType.Evm, runtime_upgrades := 0,
    hash := 8, raw_genesis := { runtimeCode := some [10], otherStorage := 5 },
    version := mkVer "test" 1, created_at := 0, updated_at := 0 }

/-- Scheduled upgrade payload to genA at version (test,3). -/
def schedUpgA : ScheduledRuntimeUpgrade :=
  { raw_genesis := genA, version := mkVer "test" 3, hash := 11 }

/-- Scheduled upgrade payload to genB at version (test,2). -/
def schedUpgB : ScheduledRuntimeUpgrade :=
  { raw_genesis := genB, version := mkVer "test" 2, hash := 12 }

/-- A registry with runtimes 0 and 1, upgrades for both scheduled at height
110 and a further upgrade for runtime 0 scheduled at height 111. -/
def regC2 : RegistryState :=
  { nextRuntimeId := 2
    runtimeRegistry := updateReg (updateReg (fun _ => none) 0 (some objT1)) 1 (some objU1)
    scheduledRuntimeUpgrades := [((110, 0), schedUpgA), ((111, 0), schedUpgB),
      ((110, 1), schedUpgB)]
    digestLogs := []
    events := [] }

/-- The state regC2 reaches by running do_upgrade_runtimes at height 110. -/
def regC2res : RegistryState :=
  { nextRuntimeId := 2
    runtimeRegistry := updateReg
      (updateReg regC2.runtimeRegistry 0 (some (upgradeObj objT1 schedUpgA 110))) 1
      (some (upgradeObj objU1 schedUpgB 110))
    scheduledRuntimeUpgrades := [((111, 0), schedUpgB)]
    digestLogs := [0, 1]
    events := [0, 1] }

/-- A registry operation: an upgrade_domain_runtime call (which runs
do_schedule_runtime_upgrade) or the per-block do_upgrade_runtimes hook. -/
inductive RegistryOp where
  | schedule (runtime_id : Nat) (raw_genesis_storage : List Nat) (current_block_number : Nat)
  | applyAt (at_ : Nat)

/-- One step of the registry: a schedule call always yields a state (its
error cases leave the state unchanged), while the per-block hook yields
none exactly when it would panic on a missing runtime object. -/
def stepOp (env : Env) (s : RegistryState) : RegistryOp → Option RegistryState
  | RegistryOp.schedule rid raw cur => some (do_schedule_runtime_upgrade env s rid raw cur).1
  | RegistryOp.applyAt at_ => do_upgrade_runtimes s at_

/-- Run a sequence of registry operations. -/
def runOps (env : Env) : RegistryState → List RegistryOp → Option RegistryState
  | s, [] => some s
  | s, op :: rest =>
    match stepOp env s op with
    | none => none
    | some s₁ => runOps env s₁ rest

/-- The pending scheduled upgrades of a given runtime id. -/
def pendingFor (s : RegistryState) (r : Nat) :
    List ((Nat × Nat) × ScheduledRuntimeUpgrade) :=
  s.scheduledRuntimeUpgrades.filter (fun e => e.1.2 = r)

/-- The stored spec_version of a runtime id, when registered. -/
def specVersionAt (s : RegistryState) (r : Nat) : Option Nat :=
  (s.runtimeRegistry r).map (fun obj => obj.version.spec_version)

/-- The no-overlap discipline for runtime r along a run: every schedule call
for r happens while no upgrade for r is pending. -/
inductive NoOverlap (env : Env) (r : Nat) : RegistryState → List RegistryOp → Prop
  | nil (s : RegistryState) : NoOverlap env r s []
  | cons {s : RegistryState} {op : RegistryOp} {rest : List RegistryOp} :
      (∀ raw cur, op = RegistryOp.schedule r raw cur → pendingFor s r = []) →
      (∀ s₁, stepOp env s op = some s₁ → NoOverlap env r s₁ rest) →
      NoOverlap env r s (op :: rest)

/-- Invariant carried along a disciplined run: the scheduled map has
pairwise distinct keys, at most one upgrade for r is pending, and any
pending upgrade for r carries a spec_version strictly above the stored
one. -/
def SpecInv (s : RegistryState) (r : Nat) : Prop :=
  (s.scheduledRuntimeUpgrades.map Prod.fst).Nodup ∧
  (pendingFor s r).length ≤ 1 ∧
  ∀ e ∈ pendingFor s r, ∀ obj, s.runtimeRegistry r = some obj →
    obj.version.spec_version < e.2.version.spec_version

/-- First intermediate state of the C3 counterexample: from regT1 (runtime
0 stored at spec version 1) schedule an upgrade to (test,3) at height 100,
activating at 110. -/
def c3s1 : RegistryState := (do_schedule_runtime_upgrade envA regT1 0 [1] 100).1

/-- Second intermediate state: additionally schedule an upgrade to (test,2)
at height 101, activating at 111 (validated against the still-stored spec
version 1). -/
def c3s2 : RegistryState := (do_schedule_runtime_upgrade envA c3s1 0 [2] 101).1

/-- Third intermediate state: the per-block hook fires at height 110. -/
def c3s3 : Option RegistryState := do_upgrade_runtimes c3s2 110

/-- Fourth intermediate state: the per-block hook fires at height 111. -/
def c3s4 : Option RegistryState := c3s3.bind (fun s => do_upgrade_runtimes s 111)

/-- The final state of the witness run for the amended C3: from regT1,
schedule one upgrade at height 100 (activating at 110) and let the
per-block hook fire at height 110. -/
def c3wFinal : RegistryState :=
  { nextRuntimeId := 1
    runtimeRegistry := updateReg regT1.runtimeRegistry 0 (some (upgradeObj objT1 schedUpgA 110))
    scheduledRuntimeUpgrades := []
    digestLogs := [0]
    events := [0] }

/-- RecordProof from lib.rs. -/
inductive RecordProof where
  | Yes
  | No
deriving DecidableEq, Repr

/-- RecordProof.yes from lib.rs. -/
def RecordProof.yes : RecordProof → Bool
  | RecordProof.Yes => true
  | RecordProof.No => false

/-- Outcome of the runtime api apply_extrinsic call: Ok(Ok(_)),
Ok(Err(validity error)) or Err(api error). -/
inductive ApplyOutcome where
  | success
  | validity (v : Nat)
  | execError (err : Nat)
deriving DecidableEq, Repr

/-- sp_blockchain Error, restricted to the shapes reachable in this crate;
payloads are opaque tags. -/
inductive BlockchainError where
  | validity (v : Nat)
  | execution (err : Nat)
  | storageChanges
  | invalidIndex (got maxIdx : Nat)
deriving DecidableEq, Repr

/-- The runtime api and the backend as external collaborators over an
abstract api state: apply_extrinsic (mutated state plus outcome),
initialize_block, inherent_extrinsics, finalize_block (header as an opaque
tag), into_storage_changes (state delta as an opaque tag), and the proof
drained from the recorder. -/
structure ApiOracle (St : Type) where
  applyExtrinsic : St → Nat → St × ApplyOutcome
  initializeBlock : St → Option St
  inherentExtrinsics : St → Nat → Option (List Nat)
  finalizeBlock : St → Option (St × Nat)
  intoStorageChanges : St → Option Nat
  proofOf : St → Nat

/-- The BlockBuilder struct: the extrinsic queue (list head = front of the
VecDeque), the runtime api state, and the proof recorder (present exactly
when record_proof was requested at construction). -/
structure BlockBuilderM (St : Type) where
  extrinsics : List Nat
  apiState : St
  recorder : Option Unit

/-- BuiltBlock from lib.rs: the header and extrinsics of the assembled
block, the storage changes, and the optional proof. -/
structure BuiltBlockM where
  blockHeader : Nat
  blockExtrinsics : List Nat
  storage_changes : Nat
  proof : Option Nat
deriving DecidableEq, Repr

/-- One execute_in_transaction call of execute_extrinsics: a successful
application commits the mutated api state, a validity failure or any other
execution fault rolls the nested scope back and reports the error. -/
def applyExtrinsicInTx {St : Type} (o : ApiOracle St) (st : St) (xt : Nat) :
    St × Except BlockchainError Unit :=
  match o.applyExtrinsic st xt with
  | (st₁, ApplyOutcome.success) => (st₁, .ok ())
  | (_, ApplyOutcome.validity v) => (st, .error (BlockchainError.validity v))
  | (_, ApplyOutcome.execError err) => (st, .error (BlockchainError.execution err))

/-- execute_extrinsics from lib.rs: apply every queued extrinsic inside its
own transaction scope, in queue order; a failure is logged and the loop
continues, and the function always returns Ok. -/
def execute_extrinsics {St : Type} (o : ApiOracle St) :
    St → List Nat → St × Except BlockchainError Unit
  | st, [] => (st, .ok ())
  | st, xt :: rest => execute_extrinsics o (applyExtrinsicInTx o st xt).1 rest

/-- create_inherents from lib.rs: ask the runtime for the inherent
extrinsics inside an always-rolled-back transaction, so the api state is
never mutated by it. -/
def create_inherents {St : Type} (o : ApiOracle St) (st : St) (inherent_data : Nat) :
    Except BlockchainError (List Nat) :=
  match o.inherentExtrinsics st inherent_data with
  | none => .error (BlockchainError.execution 0)
  | some exts => .ok exts

/-- The push_front loop of BlockBuilder::new over the created inherents. -/
def pushFrontAll (inhs extrinsics : List Nat) : List Nat :=
  inhs.foldl (fun q i => i :: q) extrinsics

/-- BlockBuilder::new from lib.rs: enable proof recording when requested,
run initialize_block, and push each created inherent extrinsic to the front
of the queue, one at a time. -/
def BlockBuilder.new {St : Type} (o : ApiOracle St) (st0 : St) (record_proof : RecordProof)
    (extrinsics : List Nat) (maybe_inherent_data : Option Nat) :
    Except BlockchainError (BlockBuilderM St) :=
  let recorder : Option Unit := if record_proof.yes then some () else none
  match o.initializeBlock st0 with
  | none => .error (BlockchainError.execution 1)
  | some st₁ =>
    match maybe_inherent_data with
    | none => .ok { extrinsics := extrinsics, apiState := st₁, recorder := recorder }
    | some inherent_data =>
      match create_inherents o st₁ inherent_data with
      | .error err => .error err
      | .ok inherent_extrinsics =>
        .ok { extrinsics := pushFrontAll inherent_extrinsics extrinsics
              apiState := st₁
              recorder := recorder }

/-- collect_storage_changes from lib.rs. -/
def collect_storage_changes {St : Type} (o : ApiOracle St) (st : St) :
    Except BlockchainError Nat :=
  match o.intoStorageChanges st with
  | none => .error BlockchainError.storageChanges
  | some changes => .ok changes

/-- BlockBuilder.build from lib.rs: execute all extrinsics, finalize the
block, extract the proof from the recorder when one is present, collect the
storage changes and assemble the BuiltBlock. -/
def BlockBuilder.build {St : Type} (o : ApiOracle St) (bb : BlockBuilderM St) :
    Except BlockchainError BuiltBlockM :=
  match (execute_extrinsics o bb.apiState bb.extrinsics).2 with
  | .error err => .error err
  | .ok _ =>
    match o.finalizeBlock (execute_extrinsics o bb.apiState bb.extrinsics).1 with
    | none => .error (BlockchainError.execution 2)
    | some (st₂, header) =>
      let proof := bb.recorder.map (fun _ => o.proofOf st₂)
      match collect_storage_changes o st₂ with
      | .error err => .error err
      | .ok storage_changes =>
        .ok { blockHeader := header, blockExtrinsics := bb.extrinsics,
              storage_changes := storage_changes, proof := proof }

/-- The loop of prepare_storage_changes_before from lib.rs: collect the
changes when the target index is reached, otherwise apply the extrinsic in
its own transaction scope and propagate its error. -/
def prepareLoop {St : Type} (o : ApiOracle St) (total extrinsic_index : Nat) :
    St → List Nat → Nat → Except BlockchainError Nat
  | _, [], _ => .error (BlockchainError.invalidIndex extrinsic_index total)
  | st, xt :: rest, index =>
    if index = extrinsic_index then collect_storage_changes o st
    else
      match applyExtrinsicInTx o st xt with
      | (st₁, .ok _) => prepareLoop o total extrinsic_index st₁ rest (index + 1)
      | (_, .error err) => .error err

/-- prepare_storage_changes_before from lib.rs. Unlike execute_extrinsics,
the per-extrinsic transaction result is propagated with the question-mark
operator, so the first failing extrinsic aborts the whole call. -/
def prepare_storage_changes_before {St : Type} (o : ApiOracle St) (bb : BlockBuilderM St)
    (extrinsic_index : Nat) : Except BlockchainError Nat :=
  prepareLoop o bb.extrinsics.length extrinsic_index bb.apiState bb.extrinsics 0

/-- prepare_storage_changes_before_finalize_block from lib.rs. -/
def prepare_storage_changes_before_finalize_block {St : Type} (o : ApiOracle St)
    (bb : BlockBuilderM St) : Except BlockchainError Nat :=
  match (execute_extrinsics o bb.apiState bb.extrinsics).2 with
  | .error err => .error err
  | .ok _ => collect_storage_changes o (execute_extrinsics o bb.apiState bb.extrinsics).1

/-- The sublist of extrinsics whose application committed during
execute_extrinsics. -/
def includedSub {St : Type} (o : ApiOracle St) : St → List Nat → List Nat
  | _, [] => []
  | st, xt :: rest =>
    match applyExtrinsicInTx o st xt with
    | (st₁, .ok _) => xt :: includedSub o st₁ rest
    | (_, .error _) => includedSub o st rest

/-- Replay a list of extrinsics requiring every single application to
succeed and commit. -/
def strictRun {St : Type} (o : ApiOracle St) : St → List Nat → Option St
  | st, [] => some st
  | st, xt :: rest =>
    match o.applyExtrinsic st xt with
    | (st₁, ApplyOutcome.success) => strictRun o st₁ rest
    | (_, ApplyOutcome.validity _) => none
    | (_, ApplyOutcome.execError _) => none

/-- Replay a prefix of extrinsics, each in its own rollback scope,
propagating the first failure — the semantics of the loop of
prepare_storage_changes_before up to the target index. -/
def strictReplayExc {St : Type} (o : ApiOracle St) :
    St → List Nat → Except BlockchainError St
  | st, [] => .ok st
  | st, xt :: rest =>
    match applyExtrinsicInTx o st xt with
    | (st₁, .ok _) => strictReplayExc o st₁ rest
    | (_, .error err) => .error err

/-- Concrete api oracle over Nat states: extrinsic 0 is invalid (validity
error 7), extrinsic 5 hits an execution fault (9), any other extrinsic xt
adds xt to the state. -/
def oracleC : ApiOracle Nat :=
  { applyExtrinsic := fun st xt =>
      if xt = 0 then (st, ApplyOutcome.validity 7)
      else if xt = 5 then (st, ApplyOutcome.execError 9)
      else (st + xt, ApplyOutcome.success)
    initializeBlock := fun st => some (st + 100)
    inherentExtrinsics := fun _ d => some [d, d + 1]
    finalizeBlock := fun st => some (st, st * 2)
    intoStorageChanges := fun st => some (st * 3)
    proofOf := fun st => st + 1 }

/-- A concrete block builder whose first extrinsic is invalid. -/
def bbC : BlockBuilderM Nat := { extrinsics := [0, 1], apiState := 0, recorder := none }

/-- A concrete block builder with an invalid extrinsic followed by two
valid ones, with proof recording on. -/
def bbC1 : BlockBuilderM Nat := { extrinsics := [0, 1, 2], apiState := 0, recorder := some () }

/-- A concrete block builder with three valid extrinsics. -/
def bbW5 : BlockBuilderM Nat := { extrinsics := [1, 2, 3], apiState := 0, recorder := none }

theorem checked_add_eq_some {m a b c : Nat} :
    checked_add m a b = some c ↔ a + b ≤ m ∧ c = a + b := by
  unfold checked_add
  split <;> simp_all <;> omega

theorem checked_add_eq_none {m a b : Nat} :
    checked_add m a b = none ↔ m < a + b := by
  unfold checked_add
  split <;> simp_all <;> omega

theorem lookupSched_insertSched (k : Nat × Nat) (v : ScheduledRuntimeUpgrade)
    (l : List ((Nat × Nat) × ScheduledRuntimeUpgrade)) :
    lookupSched k (insertSched k v l) = some v := by
  induction l with
  | nil => simp [insertSched, lookupSched]
  | cons e rest ih =>
    obtain ⟨k₁, v₁⟩ := e
    by_cases hk : k₁ = k
    · simp [insertSched, lookupSched, hk]
    · simp [insertSched, lookupSched, hk, ih]

theorem length_filter_zero_of_key_not_mem {k : Nat × Nat}
    {l : List ((Nat × Nat) × ScheduledRuntimeUpgrade)}
    (h : k ∉ l.map Prod.fst) :
    (l.filter (fun e => e.1 = k)).length = 0 := by
  induction l with
  | nil => simp
  | cons e rest ih =>
    simp only [List.map_cons, List.mem_cons] at h
    push_neg at h
    simp [List.filter_cons, Ne.symm h.1, ih h.2]

theorem countKey_insertSched (k : Nat × Nat) (v : ScheduledRuntimeUpgrade)
    (l : List ((Nat × Nat) × ScheduledRuntimeUpgrade)) (hnd : (l.map Prod.fst).Nodup) :
    ((insertSched k v l).filter (fun e => e.1 = k)).length = 1 := by
  induction l with
  | nil => simp [insertSched]
  | cons e rest ih =>
    obtain ⟨k₁, v₁⟩ := e
    simp only [List.map_cons, List.nodup_cons] at hnd
    by_cases hk : k₁ = k
    · subst hk
      simp [insertSched, List.filter_cons, length_filter_zero_of_key_not_mem hnd.1]
    · simp [insertSched, hk, List.filter_cons, Ne.symm hk, ih hnd.2]

/-- C4: for a registered runtime, do_schedule_runtime_upgrade with a
candidate whose spec_name differs from the stored version fails with
InvalidSpecName, and with candidate spec_version at most the stored
spec_version fails with SpecVersionNeedsToIncrease; in both failure cases
the returned state is exactly the input state, so no pending
ScheduledRuntimeUpgrade entry is added and the RuntimeObject is unchanged. -/
theorem schedule_upgrade_validation_failure (env : Env) (s : RegistryState)
    (runtime_id : Nat) (raw : List Nat) (cur : Nat) (obj : RuntimeObject)
    (g : RawGenesis) (code : List Nat) (v : RuntimeVersion)
    (hreg : s.runtimeRegistry runtime_id = some obj)
    (hdec : env.decodeRawGenesis raw = some g)
    (hcode : g.runtimeCode = some code)
    (hver : env.runtimeVersionOf code = some v) :
    (v.spec_name ≠ obj.version.spec_name →
      do_schedule_runtime_upgrade env s runtime_id raw cur =
        (s, .error RegistryError.InvalidSpecName)) ∧
    (v.spec_name = obj.version.spec_name → v.spec_version ≤ obj.version.spec_version →
      do_schedule_runtime_upgrade env s runtime_id raw cur =
        (s, .error RegistryError.SpecVersionNeedsToIncrease)) := by
  constructor
  · intro hname
    simp [do_schedule_runtime_upgrade, hreg, hdec, hcode, can_upgrade_code,
      runtime_version, hver, hname]
  · intro hname hle
    simp [do_schedule_runtime_upgrade, hreg, hdec, hcode, can_upgrade_code,
      runtime_version, hver, hname, hle]

/-- Witness for C4: concrete incompatible-spec-name and
non-increasing-spec-version schedule attempts fail as stated and leave the
state untouched. -/
theorem schedule_upgrade_validation_failure_witness :
    do_schedule_runtime_upgrade envA regT1 0 [3] 5 =
      (regT1, .error RegistryError.InvalidSpecName) ∧
    do_schedule_runtime_upgrade envA regT1 0 [4] 5 =
      (regT1, .error RegistryError.SpecVersionNeedsToIncrease) :=
  ⟨(schedule_upgrade_validation_failure envA regT1 0 [3] 5 objT1 genC [13]
      (mkVer "other" 1) (by decide) (by decide) (by decide) (by decide)).1 (by decide),
   (schedule_upgrade_validation_failure envA regT1 0 [4] 5 objT1 genD [14]
      (mkVer "test" 1) (by decide) (by decide) (by decide) (by decide)).2
      (by decide) (by decide)⟩

/-- C7: for a registered runtime and a valid candidate,
do_schedule_runtime_upgrade returns the activation height
current_block_number + DomainRuntimeUpgradeDelay and inserts the scheduled
upgrade carrying the candidate raw genesis, version and code hash under the
key (activation height, runtime id); when the map previously had no
duplicate keys exactly one entry with that key exists afterwards. If the
checked addition overflows the block-number type, the call fails with
MaxScheduledBlockNumber and the state is returned unchanged, so nothing is
stored. -/
theorem schedule_upgrade_success_or_overflow (env : Env) (s : RegistryState)
    (runtime_id : Nat) (raw : List Nat) (cur : Nat) (obj : RuntimeObject)
    (g : RawGenesis) (code : List Nat) (v : RuntimeVersion)
    (hreg : s.runtimeRegistry runtime_id = some obj)
    (hdec : env.decodeRawGenesis raw = some g)
    (hcode : g.runtimeCode = some code)
    (hver : env.runtimeVersionOf code = some v)
    (hname : v.spec_name = obj.version.spec_name)
    (hgt : obj.version.spec_version < v.spec_version) :
    (cur + env.domainRuntimeUpgradeDelay ≤ env.blockNumberMax →
      do_schedule_runtime_upgrade env s runtime_id raw cur =
        (schedInsertState s (cur + env.domainRuntimeUpgradeDelay, runtime_id)
          { raw_genesis := g, version := v, hash := env.hashOf code },
         .ok (cur + env.domainRuntimeUpgradeDelay)) ∧
      lookupSched (cur + env.domainRuntimeUpgradeDelay, runtime_id)
        (do_schedule_runtime_upgrade env s runtime_id raw cur).1.scheduledRuntimeUpgrades =
        some { raw_genesis := g, version := v, hash := env.hashOf code } ∧
      ((s.scheduledRuntimeUpgrades.map Prod.fst).Nodup →
        ((do_schedule_runtime_upgrade env s runtime_id raw
            cur).1.scheduledRuntimeUpgrades.filter
          (fun e => e.1 = (cur + env.domainRuntimeUpgradeDelay, runtime_id))).length = 1)) ∧
    (env.blockNumberMax < cur + env.domainRuntimeUpgradeDelay →
      do_schedule_runtime_upgrade env s runtime_id raw cur =
        (s, .error RegistryError.MaxScheduledBlockNumber)) := by
  have hcan : can_upgrade_code env obj.version code = .ok v := by
    simp [can_upgrade_code, runtime_version, hver, hname]
    omega
  constructor
  · intro hle
    have hca : checked_add env.blockNumberMax cur env.domainRuntimeUpgradeDelay =
        some (cur + env.domainRuntimeUpgradeDelay) := by
      simp [checked_add, hle]
    have heq : do_schedule_runtime_upgrade env s runtime_id raw cur =
        (schedInsertState s (cur + env.domainRuntimeUpgradeDelay, runtime_id)
          { raw_genesis := g, version := v, hash := env.hashOf code },
         .ok (cur + env.domainRuntimeUpgradeDelay)) := by
      simp [do_schedule_runtime_upgrade, hreg, hdec, hcode, hcan, hca, schedInsertState]
    refine ⟨heq, ?_, ?_⟩
    · rw [heq]
      exact lookupSched_insertSched _ _ _
    · intro hnd
      rw [heq]
      exact countKey_insertSched _ _ _ hnd
  · intro hover
    have hca : checked_add env.blockNumberMax cur env.domainRuntimeUpgradeDelay = none := by
      simp [checked_add]
      omega
    simp [do_schedule_runtime_upgrade, hreg, hdec, hcode, hcan, hca]

/-- Witness for C7: a concrete valid schedule at height 100 with delay 10
activates at 110 and stores exactly the candidate data; the same schedule
against a block-number type capped at 5 overflows and stores nothing. -/
theorem schedule_upgrade_success_or_overflow_witness :
    (do_schedule_runtime_upgrade envA regT1 0 [1] 100 =
      (schedInsertState regT1 (110, 0)
        { raw_genesis := genA, version := mkVer "test" 3, hash := 11 },
       .ok 110) ∧
     lookupSched (110, 0)
       (do_schedule_runtime_upgrade envA regT1 0 [1] 100).1.scheduledRuntimeUpgrades =
       some { raw_genesis := genA, version := mkVer "test" 3, hash := 11 } ∧
     ((do_schedule_runtime_upgrade envA regT1 0 [1]
         100).1.scheduledRuntimeUpgrades.filter (fun e => e.1 = (110, 0))).length = 1) ∧
    do_schedule_runtime_upgrade { envA with blockNumberMax := 5 } regT1 0 [1] 100 =
      (regT1, .error RegistryError.MaxScheduledBlockNumber) := by
  constructor
  · have h := (schedule_upgrade_success_or_overflow envA regT1 0 [1] 100 objT1 genA [11]
      (mkVer "test" 3) (by decide) (by decide) (by decide) (by decide) (by decide)
      (by decide)).1 (by decide)
    exact ⟨h.1, h.2.1, h.2.2 (by decide)⟩
  · exact (schedule_upgrade_success_or_overflow { envA with blockNumberMax := 5 } regT1 0
      [1] 100 objT1 genA [11] (mkVer "test" 3) (by decide) (by decide) (by decide)
      (by decide) (by decide) (by decide)).2 (by decide)

/-- Helper: do_register_runtime never decreases NextRuntimeId. -/
theorem register_nextRuntimeId_mono (env : Env) (s : RegistryState) (n : String)
    (t : RuntimeType) (r : List Nat) (a : Nat) :
    s.nextRuntimeId ≤ (do_register_runtime env s n t r a).1.nextRuntimeId := by
  unfold do_register_runtime
  rcases hd : env.decodeRawGenesis r with _ | g
  · simp [hd]
  · rcases hc : g.runtimeCode with _ | code
    · simp [hd, hc]
    · rcases hv : env.runtimeVersionOf code with _ | v
      · simp [hd, hc, hv]
      · rcases hca : checked_add u32Max s.nextRuntimeId 1 with _ | nid
        · simp [hd, hc, hv, hca]
        · have := checked_add_eq_some.mp hca
          simp [hd, hc, hv, hca]
          omega

/-- Helper: a successful do_register_runtime returned the old NextRuntimeId
and advanced the counter by one. -/
theorem register_ok_id {env : Env} {s : RegistryState} {n : String} {t : RuntimeType}
    {r : List Nat} {a : Nat} {s₂ : RegistryState} {id : Nat}
    (h : do_register_runtime env s n t r a = (s₂, .ok id)) :
    id = s.nextRuntimeId ∧ s₂.nextRuntimeId = s.nextRuntimeId + 1 := by
  unfold do_register_runtime at h
  rcases hd : env.decodeRawGenesis r with _ | g <;> simp only [hd] at h
  · simp at h
  · rcases hc : g.runtimeCode with _ | code <;> simp only [hc] at h
    · simp at h
    · rcases hv : env.runtimeVersionOf code with _ | v <;> simp only [hv] at h
      · simp at h
      · rcases hca : checked_add u32Max s.nextRuntimeId 1 with _ | nid <;>
          simp only [hca] at h
        · simp at h
        · have hsum := checked_add_eq_some.mp hca
          have h1 := congrArg Prod.fst h
          have h2 := congrArg Prod.snd h
          simp only [] at h1 h2
          simp at h2
          constructor
          · omega
          · rw [← h1]
            simp
            omega

/-- C6: a successful do_register_runtime stores a RuntimeObject whose
runtime_upgrades is 0, whose created_at and updated_at equal the given
height, and whose hash is the hash of the code embedded in the decoded
genesis blob; it returns the current NextRuntimeId and advances the counter
by exactly one. Moreover NextRuntimeId never decreases under any
registration, and a second successful registration returns a different id. -/
theorem register_runtime_success (env : Env) (s : RegistryState) (runtime_name : String)
    (runtime_type : RuntimeType) (raw : List Nat) (at_ : Nat)
    (g : RawGenesis) (code : List Nat) (v : RuntimeVersion)
    (hdec : env.decodeRawGenesis raw = some g)
    (hcode : g.runtimeCode = some code)
    (hver : env.runtimeVersionOf code = some v)
    (hid : s.nextRuntimeId < u32Max) :
    do_register_runtime env s runtime_name runtime_type raw at_ =
      (registerSuccessState env s runtime_name runtime_type g code v at_,
       .ok s.nextRuntimeId) ∧
    (do_register_runtime env s runtime_name runtime_type raw at_).1.runtimeRegistry
        s.nextRuntimeId =
      some { runtime_name := runtime_name, runtime_type := runtime_type,
             runtime_upgrades := 0, hash := env.hashOf code, raw_genesis := g,
             version := v, created_at := at_, updated_at := at_ } ∧
    (do_register_runtime env s runtime_name runtime_type raw at_).1.nextRuntimeId =
      s.nextRuntimeId + 1 ∧
    (∀ s₃ : RegistryState, ∀ n₂ : String, ∀ t₂ : RuntimeType, ∀ r₂ : List Nat, ∀ a₂ : Nat,
      s₃.nextRuntimeId ≤ (do_register_runtime env s₃ n₂ t₂ r₂ a₂).1.nextRuntimeId) ∧
    (∀ n₂ t₂ r₂ a₂ s₃ id₂,
      do_register_runtime env
          (do_register_runtime env s runtime_name runtime_type raw at_).1 n₂ t₂ r₂ a₂ =
        (s₃, .ok id₂) → id₂ ≠ s.nextRuntimeId) := by
  have hca : checked_add u32Max s.nextRuntimeId 1 = some (s.nextRuntimeId + 1) := by
    rw [checked_add_eq_some]
    omega
  have heq : do_register_runtime env s runtime_name runtime_type raw at_ =
      (registerSuccessState env s runtime_name runtime_type g code v at_,
       .ok s.nextRuntimeId) := by
    simp [do_register_runtime, hdec, hcode, hver, hca, registerSuccessState]
  refine ⟨heq, ?_, ?_, ?_, ?_⟩
  · rw [heq]
    simp [registerSuccessState, updateReg]
  · rw [heq]
    simp [registerSuccessState]
  · intro s₃ n₂ t₂ r₂ a₂
    exact register_nextRuntimeId_mono env s₃ n₂ t₂ r₂ a₂
  · intro n₂ t₂ r₂ a₂ s₃ id₂ h2
    have h1 := register_ok_id h2
    rw [heq] at h1
    simp [registerSuccessState] at h1
    omega

/-- Witness for C6: a concrete registration into regT1 (whose NextRuntimeId
is 1) returns id 1, stores the object with zeroed upgrade count and
created_at = updated_at = 5, and advances the counter to 2. -/
theorem register_runtime_success_witness :
    do_register_runtime envA regT1 "evm2" RuntimeType.Evm [1] 5 =
      (registerSuccessState envA regT1 "evm2" RuntimeType.Evm genA [11] (mkVer "test" 3) 5,
       .ok 1) ∧
    (do_register_runtime envA regT1 "evm2" RuntimeType.Evm [1] 5).1.runtimeRegistry 1 =
      some { runtime_name := "evm2", runtime_type := RuntimeType.Evm,
             runtime_upgrades := 0, hash := 11, raw_genesis := genA,
             version := mkVer "test" 3, created_at := 5, updated_at := 5 } ∧
    (do_register_runtime envA regT1 "evm2" RuntimeType.Evm [1] 5).1.nextRuntimeId = 2 ∧
    (∀ s₃ : RegistryState, ∀ n₂ : String, ∀ t₂ : RuntimeType, ∀ r₂ : List Nat, ∀ a₂ : Nat,
      s₃.nextRuntimeId ≤ (do_register_runtime envA s₃ n₂ t₂ r₂ a₂).1.nextRuntimeId) ∧
    (∀ n₂ t₂ r₂ a₂ s₃ id₂,
      do_register_runtime envA
          (do_register_runtime envA regT1 "evm2" RuntimeType.Evm [1] 5).1 n₂ t₂ r₂ a₂ =
        (s₃, .ok id₂) → id₂ ≠ 1) :=
  register_runtime_success envA regT1 "evm2" RuntimeType.Evm [1] 5 genA [11]
    (mkVer "test" 3) (by decide) (by decide) (by decide) (by decide)

/-- C9: when NextRuntimeId holds the maximal u32 value, do_register_runtime
returns the MaxRuntimeId error, yet the new RuntimeObject has already been
inserted under that maximal id and NextRuntimeId is left unchanged: the
registry state is mutated despite the error return. -/
theorem register_runtime_at_max_id (env : Env) (s : RegistryState) (runtime_name : String)
    (runtime_type : RuntimeType) (raw : List Nat) (at_ : Nat)
    (g : RawGenesis) (code : List Nat) (v : RuntimeVersion)
    (hdec : env.decodeRawGenesis raw = some g)
    (hcode : g.runtimeCode = some code)
    (hver : env.runtimeVersionOf code = some v)
    (hmax : s.nextRuntimeId = u32Max) :
    (do_register_runtime env s runtime_name runtime_type raw at_).2 =
      .error RegistryError.MaxRuntimeId ∧
    (do_register_runtime env s runtime_name runtime_type raw at_).1.runtimeRegistry u32Max =
      some { runtime_name := runtime_name, runtime_type := runtime_type,
             runtime_upgrades := 0, hash := env.hashOf code, raw_genesis := g,
             version := v, created_at := at_, updated_at := at_ } ∧
    (do_register_runtime env s runtime_name runtime_type raw at_).1.nextRuntimeId =
      s.nextRuntimeId := by
  have hca : checked_add u32Max u32Max 1 = none := by
    rw [checked_add_eq_none]
    omega
  refine ⟨?_, ?_, ?_⟩ <;>
    simp [do_register_runtime, hdec, hcode, hver, hmax, hca, updateReg]

/-- Witness for C9: registering into a state whose NextRuntimeId is the
maximal u32 value errors with MaxRuntimeId while inserting the object under
that id and leaving the counter unchanged. -/
theorem register_runtime_at_max_id_witness :
    (do_register_runtime envA { regT1 with nextRuntimeId := u32Max } "evm2" RuntimeType.Evm
        [1] 5).2 = .error RegistryError.MaxRuntimeId ∧
    (do_register_runtime envA { regT1 with nextRuntimeId := u32Max } "evm2" RuntimeType.Evm
        [1] 5).1.runtimeRegistry u32Max =
      some { runtime_name := "evm2", runtime_type := RuntimeType.Evm,
             runtime_upgrades := 0, hash := 11, raw_genesis := genA,
             version := mkVer "test" 3, created_at := 5, updated_at := 5 } ∧
    (do_register_runtime envA { regT1 with nextRuntimeId := u32Max } "evm2" RuntimeType.Evm
        [1] 5).1.nextRuntimeId = u32Max :=
  register_runtime_at_max_id envA { regT1 with nextRuntimeId := u32Max } "evm2"
    RuntimeType.Evm [1] 5 genA [11] (mkVer "test" 3) (by decide) (by decide) (by decide)
    rfl

/-- Helper: a successful applyScheduled step found the runtime object and
produced the mutated state with one digest log and one event appended. -/
theorem applyScheduled_eq_some {at_ : Nat} {s : RegistryState}
    {e : Nat × ScheduledRuntimeUpgrade} {s₁ : RegistryState}
    (h : applyScheduled at_ s e = some s₁) :
    ∃ obj, s.runtimeRegistry e.1 = some obj ∧
      s₁ = { s with
        runtimeRegistry := updateReg s.runtimeRegistry e.1 (some (upgradeObj obj e.2 at_))
        digestLogs := s.digestLogs ++ [e.1]
        events := s.events ++ [e.1] } := by
  unfold applyScheduled at h
  rcases hr : s.runtimeRegistry e.1 with _ | obj <;> simp only [hr] at h
  · exact absurd h (by simp)
  · refine ⟨obj, rfl, ?_⟩
    simpa using h.symm

/-- Helper: the loop of do_upgrade_runtimes never touches the scheduled map
or NextRuntimeId, and appends exactly the processed runtime ids, in order,
to the digest logs and the events. -/
theorem applyAllScheduled_frame {at_ : Nat} {es : List (Nat × ScheduledRuntimeUpgrade)} :
    ∀ {s s2 : RegistryState}, applyAllScheduled at_ s es = some s2 →
      s2.scheduledRuntimeUpgrades = s.scheduledRuntimeUpgrades ∧
      s2.nextRuntimeId = s.nextRuntimeId ∧
      s2.digestLogs = s.digestLogs ++ es.map Prod.fst ∧
      s2.events = s.events ++ es.map Prod.fst := by
  induction es with
  | nil =>
    intro s s2 h
    simp only [applyAllScheduled, Option.some.injEq] at h
    simp [h]
  | cons e rest ih =>
    intro s s2 h
    unfold applyAllScheduled at h
    rcases h1 : applyScheduled at_ s e with _ | s₁ <;> simp only [h1] at h
    · exact absurd h (by simp)
    · obtain ⟨obj, hr, hs₁⟩ := applyScheduled_eq_some h1
      obtain ⟨a, b, c, d⟩ := ih h
      subst hs₁
      simp_all

/-- Helper: the loop of do_upgrade_runtimes leaves the registry unchanged at
every runtime id it does not process. -/
theorem applyAllScheduled_registry_notin {at_ : Nat}
    {es : List (Nat × ScheduledRuntimeUpgrade)} :
    ∀ {s s2 : RegistryState} {r : Nat}, applyAllScheduled at_ s es = some s2 →
      r ∉ es.map Prod.fst → s2.runtimeRegistry r = s.runtimeRegistry r := by
  induction es with
  | nil =>
    intro s s2 r h _
    simp only [applyAllScheduled, Option.some.injEq] at h
    simp [h]
  | cons e rest ih =>
    intro s s2 r h hnot
    unfold applyAllScheduled at h
    rcases h1 : applyScheduled at_ s e with _ | s₁ <;> simp only [h1] at h
    · exact absurd h (by simp)
    · obtain ⟨obj, hr, hs₁⟩ := applyScheduled_eq_some h1
      simp only [List.map_cons, List.mem_cons] at hnot
      push_neg at hnot
      have := ih h hnot.2
      rw [this, hs₁]
      simp [updateReg, hnot.1]

/-- Helper: the loop of do_upgrade_runtimes replaces the registry entry of
every processed runtime id by its upgraded object, provided the processed
ids are pairwise distinct. -/
theorem applyAllScheduled_registry_mem {at_ : Nat}
    {es : List (Nat × ScheduledRuntimeUpgrade)} :
    ∀ {s s2 : RegistryState} {r : Nat} {upd : ScheduledRuntimeUpgrade},
      applyAllScheduled at_ s es = some s2 → (es.map Prod.fst).Nodup → (r, upd) ∈ es →
      ∃ obj, s.runtimeRegistry r = some obj ∧
        s2.runtimeRegistry r = some (upgradeObj obj upd at_) := by
  induction es with
  | nil => intro s s2 r upd _ _ hmem; simp at hmem
  | cons e rest ih =>
    intro s s2 r upd h hnd hmem
    unfold applyAllScheduled at h
    rcases h1 : applyScheduled at_ s e with _ | s₁ <;> simp only [h1] at h
    · exact absurd h (by simp)
    · obtain ⟨obj, hr, hs₁⟩ := applyScheduled_eq_some h1
      simp only [List.map_cons, List.nodup_cons] at hnd
      rcases List.mem_cons.mp hmem with heq | hrest
      · subst heq
        refine ⟨obj, hr, ?_⟩
        have hnotin : r ∉ rest.map Prod.fst := by simpa using hnd.1
        have := applyAllScheduled_registry_notin h hnotin
        rw [this, hs₁]
        simp [updateReg]
      · have hrfst : r ∈ rest.map Prod.fst := List.mem_map.mpr ⟨(r, upd), hrest, rfl⟩
        have hne : r ≠ e.1 := by
          intro hcontra
          exact hnd.1 (hcontra ▸ hrfst)
        obtain ⟨obj₂, ho, hso⟩ := ih h hnd.2 hrest
        refine ⟨obj₂, ?_, hso⟩
        rw [← ho, hs₁]
        simp [updateReg, hne]

/-- Helper: drained runtime ids are pairwise distinct when the scheduled map
has pairwise distinct keys. -/
theorem nodup_drainedAt_keys (at_ : Nat)
    (sch : List ((Nat × Nat) × ScheduledRuntimeUpgrade))
    (hnd : (sch.map Prod.fst).Nodup) :
    ((drainedAt at_ sch).map Prod.fst).Nodup := by
  have hsub : ((sch.filter (fun e => e.1.1 = at_)).map Prod.fst).Sublist
      (sch.map Prod.fst) := (List.filter_sublist sch).map Prod.fst
  have h1 : ((sch.filter (fun e => e.1.1 = at_)).map Prod.fst).Nodup := hnd.sublist hsub
  have hconst : ∀ k ∈ (sch.filter (fun e => e.1.1 = at_)).map Prod.fst, k.1 = at_ := by
    intro k hk
    obtain ⟨e, he, hke⟩ := List.mem_map.mp hk
    have := List.mem_filter.mp he
    subst hke
    simpa using this.2
  have h2 : (((sch.filter (fun e => e.1.1 = at_)).map Prod.fst).map Prod.snd).Nodup := by
    refine List.Nodup.map_on ?_ h1
    intro x hx y hy hxy
    have hx1 := hconst x hx
    have hy1 := hconst y hy
    exact Prod.ext (hx1.trans hy1.symm) hxy
  have h3 : (drainedAt at_ sch).map Prod.fst =
      ((sch.filter (fun e => e.1.1 = at_)).map Prod.fst).map Prod.snd := by
    simp [drainedAt, List.map_map]
  rw [h3]
  exact h2

/-- Helper: an entry of the scheduled map keyed at the drained height shows
up among the drained entries. -/
theorem mem_drainedAt {at_ rid : Nat} {upd : ScheduledRuntimeUpgrade}
    {sch : List ((Nat × Nat) × ScheduledRuntimeUpgrade)}
    (h : ((at_, rid), upd) ∈ sch) : (rid, upd) ∈ drainedAt at_ sch := by
  unfold drainedAt
  refine List.mem_map.mpr ⟨((at_, rid), upd), ?_, rfl⟩
  refine List.mem_filter.mpr ⟨h, by simp⟩

/-- C2: do_upgrade_runtimes at a height removes every scheduled upgrade
keyed at that height (no pending entry at the height remains and only those
entries are removed); for each removed entry the corresponding
RuntimeObject is replaced so that its raw genesis, version and code hash
become the scheduled values, updated_at becomes the height,
runtime_upgrades grows by one (saturating at the u32 maximum), and exactly
one digest log and exactly one event carrying that runtime id are emitted;
all other registry entries are untouched. The hypothesis that the scheduled
map has pairwise distinct keys is the double-map invariant of the
storage. -/
theorem upgrade_runtimes_at_height (s : RegistryState) (at_ : Nat) (s2 : RegistryState)
    (hnd : (s.scheduledRuntimeUpgrades.map Prod.fst).Nodup)
    (h : do_upgrade_runtimes s at_ = some s2) :
    s2.scheduledRuntimeUpgrades = remainingAt at_ s.scheduledRuntimeUpgrades ∧
    (∀ e ∈ s2.scheduledRuntimeUpgrades, e.1.1 ≠ at_) ∧
    (∀ rid upd, ((at_, rid), upd) ∈ s.scheduledRuntimeUpgrades →
      ∃ obj, s.runtimeRegistry rid = some obj ∧
        s2.runtimeRegistry rid = some (upgradeObj obj upd at_) ∧
        (upgradeObj obj upd at_).raw_genesis = upd.raw_genesis ∧
        (upgradeObj obj upd at_).version = upd.version ∧
        (upgradeObj obj upd at_).hash = upd.hash ∧
        (upgradeObj obj upd at_).updated_at = at_ ∧
        (obj.runtime_upgrades < u32Max →
          (upgradeObj obj upd at_).runtime_upgrades = obj.runtime_upgrades + 1) ∧
        (s2.digestLogs.drop s.digestLogs.length).count rid = 1 ∧
        (s2.events.drop s.events.length).count rid = 1) ∧
    (∀ rid, rid ∉ (drainedAt at_ s.scheduledRuntimeUpgrades).map Prod.fst →
      s2.runtimeRegistry rid = s.runtimeRegistry rid) ∧
    s2.digestLogs =
      s.digestLogs ++ (drainedAt at_ s.scheduledRuntimeUpgrades).map Prod.fst ∧
    s2.events = s.events ++ (drainedAt at_ s.scheduledRuntimeUpgrades).map Prod.fst := by
  unfold do_upgrade_runtimes at h
  obtain ⟨hfsched, hfnext, hflogs, hfevents⟩ := applyAllScheduled_frame h
  have hdnod := nodup_drainedAt_keys at_ s.scheduledRuntimeUpgrades hnd
  refine ⟨?_, ?_, ?_, ?_, ?_, ?_⟩
  · exact hfsched
  · rw [hfsched]
    intro e he
    have h2 : e ∈ s.scheduledRuntimeUpgrades ∧ ¬ e.1.1 = at_ := by
      simpa [remainingAt] using he
    exact h2.2
  · intro rid upd hmem
    have hdm := mem_drainedAt hmem
    obtain ⟨obj, ho, hs2⟩ := applyAllScheduled_registry_mem h hdnod hdm
    have hridmem : rid ∈ (drainedAt at_ s.scheduledRuntimeUpgrades).map Prod.fst :=
      List.mem_map.mpr ⟨(rid, upd), hdm, rfl⟩
    refine ⟨obj, ho, hs2, rfl, rfl, rfl, rfl, ?_, ?_, ?_⟩
    · intro hlt
      simp only [upgradeObj]
      omega
    · rw [hflogs]
      have : (s.digestLogs ++
          (drainedAt at_ s.scheduledRuntimeUpgrades).map Prod.fst).drop
            s.digestLogs.length =
          (drainedAt at_ s.scheduledRuntimeUpgrades).map Prod.fst := by
        simp
      rw [this]
      exact List.count_eq_one_of_mem hdnod hridmem
    · rw [hfevents]
      have : (s.events ++
          (drainedAt at_ s.scheduledRuntimeUpgrades).map Prod.fst).drop s.events.length =
          (drainedAt at_ s.scheduledRuntimeUpgrades).map Prod.fst := by
        simp
      rw [this]
      exact List.count_eq_one_of_mem hdnod hridmem
  · intro rid hnotin
    have := applyAllScheduled_registry_notin h hnotin
    exact this
  · exact hflogs
  · exact hfevents

/-- Witness for C2: at height 110 the two due upgrades of regC2 are drained
(the one scheduled at 111 stays) and the digest log records exactly the two
upgraded runtime ids. -/
theorem upgrade_runtimes_at_height_witness :
    regC2res.scheduledRuntimeUpgrades = remainingAt 110 regC2.scheduledRuntimeUpgrades ∧
    regC2res.digestLogs =
      regC2.digestLogs ++ (drainedAt 110 regC2.scheduledRuntimeUpgrades).map Prod.fst :=
  ⟨(upgrade_runtimes_at_height regC2 110 regC2res (by decide) rfl).1,
   (upgrade_runtimes_at_height regC2 110 regC2res (by decide) rfl).2.2.2.2.1⟩

/-- Counterexample for C3: with two upgrades pending simultaneously (both
validated against stored spec version 1), applying them in height order
moves the stored spec_version of runtime 0 from 3 at height 110 down to 2
at height 111 — a strict decrease between consecutive states of a
schedule/apply sequence started from a registered runtime. -/
theorem spec_version_monotonicity_counterexample :
    c3s3.map (fun s => specVersionAt s 0) = some (some 3) ∧
    c3s4.map (fun s => specVersionAt s 0) = some (some 2) :=
  ⟨rfl, rfl⟩

/-- Helper: a successful can_upgrade_code yields exactly the candidate
version, with matching spec name and strictly larger spec version. -/
theorem can_upgrade_code_ok {env : Env} {cv v : RuntimeVersion} {code : List Nat}
    (h : can_upgrade_code env cv code = .ok v) :
    env.runtimeVersionOf code = some v ∧ v.spec_name = cv.spec_name ∧
      cv.spec_version < v.spec_version := by
  unfold can_upgrade_code runtime_version at h
  rcases hv : env.runtimeVersionOf code with _ | w <;> simp only [hv] at h
  · exact absurd h (by simp)
  · by_cases hn : w.spec_name = cv.spec_name
    · by_cases hs : w.spec_version ≤ cv.spec_version
      · simp [hn, hs] at h
      · simp [hn, hs] at h
        subst h
        exact ⟨rfl, hn, by omega⟩
    · simp [hn] at h

/-- Helper: do_schedule_runtime_upgrade either leaves the state untouched
(one of its error paths) or performs exactly one validated insert into the
scheduled map. -/
theorem do_schedule_cases (env : Env) (s : RegistryState) (rid : Nat) (raw : List Nat)
    (cur : Nat) :
    (do_schedule_runtime_upgrade env s rid raw cur).1 = s ∨
    ∃ obj g code v,
      s.runtimeRegistry rid = some obj ∧
      env.decodeRawGenesis raw = some g ∧
      g.runtimeCode = some code ∧
      env.runtimeVersionOf code = some v ∧
      v.spec_name = obj.version.spec_name ∧
      obj.version.spec_version < v.spec_version ∧
      (do_schedule_runtime_upgrade env s rid raw cur).1 =
        schedInsertState s (cur + env.domainRuntimeUpgradeDelay, rid)
          { raw_genesis := g, version := v, hash := env.hashOf code } := by
  rcases hreg : s.runtimeRegistry rid with _ | obj
  · exact Or.inl (by simp [do_schedule_runtime_upgrade, hreg])
  · rcases hdec : env.decodeRawGenesis raw with _ | g
    · exact Or.inl (by simp [do_schedule_runtime_upgrade, hreg, hdec])
    · rcases hcode : g.runtimeCode with _ | code
      · exact Or.inl (by simp [do_schedule_runtime_upgrade, hreg, hdec, hcode])
      · rcases hcan : can_upgrade_code env obj.version code with e | v
        · exact Or.inl (by simp [do_schedule_runtime_upgrade, hreg, hdec, hcode, hcan])
        · obtain ⟨hver, hname, hgt⟩ := can_upgrade_code_ok hcan
          rcases hca : checked_add env.blockNumberMax cur env.domainRuntimeUpgradeDelay
            with _ | sa
          · exact Or.inl (by simp [do_schedule_runtime_upgrade, hreg, hdec, hcode, hcan, hca])
          · obtain ⟨hle, hsa⟩ := checked_add_eq_some.mp hca
            subst hsa
            refine Or.inr ⟨obj, g, code, v, ?_, ?_, ?_, ?_, hname, hgt, ?_⟩
            · simp [hreg]
            · simp [hdec]
            · simp [hcode]
            · simp [hver]
            · simp [do_schedule_runtime_upgrade, hreg, hdec, hcode, hcan, hca,
                schedInsertState]

/-- Helper: do_schedule_runtime_upgrade never changes the runtime
registry. -/
theorem do_schedule_registry_eq (env : Env) (s : RegistryState) (rid : Nat)
    (raw : List Nat) (cur : Nat) :
    ((do_schedule_runtime_upgrade env s rid raw cur).1).runtimeRegistry =
      s.runtimeRegistry := by
  rcases do_schedule_cases env s rid raw cur with heq | ⟨_, _, _, _, _, _, _, _, _, _, heq⟩
  · rw [heq]
  · rw [heq]
    rfl

/-- Helper: inserting under a key of another runtime id does not change the
pending entries of runtime r. -/
theorem filter_insertSched_ne (k : Nat × Nat) (v : ScheduledRuntimeUpgrade)
    (l : List ((Nat × Nat) × ScheduledRuntimeUpgrade)) (r : Nat) (hk : k.2 ≠ r) :
    (insertSched k v l).filter (fun e => e.1.2 = r) = l.filter (fun e => e.1.2 = r) := by
  induction l with
  | nil => simp [insertSched, List.filter_cons, hk]
  | cons e rest ih =>
    obtain ⟨k₁, v₁⟩ := e
    by_cases hkk : k₁ = k
    · subst hkk
      simp [insertSched, List.filter_cons, hk]
    · simp [insertSched, hkk, List.filter_cons, ih]

/-- Helper: inserting under a key of runtime r when r has no pending entry
makes the inserted entry the only pending one. -/
theorem filter_insertSched_self (k : Nat × Nat) (v : ScheduledRuntimeUpgrade)
    (l : List ((Nat × Nat) × ScheduledRuntimeUpgrade)) (r : Nat) (hk : k.2 = r)
    (hempty : l.filter (fun e => e.1.2 = r) = []) :
    (insertSched k v l).filter (fun e => e.1.2 = r) = [(k, v)] := by
  induction l with
  | nil => simp [insertSched, List.filter_cons, hk]
  | cons e rest ih =>
    obtain ⟨k₁, v₁⟩ := e
    rw [List.filter_cons] at hempty
    by_cases hk₁ : k₁.2 = r
    · simp [hk₁] at hempty
    · have hrest : rest.filter (fun e => e.1.2 = r) = [] := by
        simpa [hk₁] using hempty
      by_cases hkk : k₁ = k
      · subst hkk
        exact absurd hk hk₁
      · simp [insertSched, hkk, List.filter_cons, hk₁, ih hrest]

/-- Helper: every key of an inserted map is the inserted key or an original
key. -/
theorem mem_keys_insertSched {k : Nat × Nat} {v : ScheduledRuntimeUpgrade}
    {l : List ((Nat × Nat) × ScheduledRuntimeUpgrade)} {x : Nat × Nat}
    (h : x ∈ (insertSched k v l).map Prod.fst) : x = k ∨ x ∈ l.map Prod.fst := by
  induction l with
  | nil => simpa [insertSched] using h
  | cons e rest ih =>
    obtain ⟨k₁, v₁⟩ := e
    by_cases hkk : k₁ = k
    · subst hkk
      simpa [insertSched] using h
    · simp only [insertSched, if_neg hkk, List.map_cons, List.mem_cons] at h
      rcases h with h | h
      · exact Or.inr (by simp [h])
      · rcases ih h with h | h
        · exact Or.inl h
        · exact Or.inr (by simp [h])

/-- Helper: insertSched preserves pairwise-distinct keys. -/
theorem nodup_keys_insertSched (k : Nat × Nat) (v : ScheduledRuntimeUpgrade)
    (l : List ((Nat × Nat) × ScheduledRuntimeUpgrade)) (h : (l.map Prod.fst).Nodup) :
    ((insertSched k v l).map Prod.fst).Nodup := by
  induction l with
  | nil => simp [insertSched]
  | cons e rest ih =>
    obtain ⟨k₁, v₁⟩ := e
    simp only [List.map_cons, List.nodup_cons] at h
    by_cases hkk : k₁ = k
    · subst hkk
      have hred : insertSched k₁ v ((k₁, v₁) :: rest) = (k₁, v) :: rest := by
        simp [insertSched]
      rw [hred, List.map_cons, List.nodup_cons]
      exact ⟨h.1, h.2⟩
    · simp only [insertSched, if_neg hkk, List.map_cons, List.nodup_cons]
      refine ⟨?_, ih h.2⟩
      intro hmem
      rcases mem_keys_insertSched hmem with hx | hx
      · exact hkk hx
      · exact h.1 hx

/-- Helper: remainingAt preserves pairwise-distinct keys. -/
theorem nodup_keys_remainingAt (at_ : Nat)
    (l : List ((Nat × Nat) × ScheduledRuntimeUpgrade)) (h : (l.map Prod.fst).Nodup) :
    ((remainingAt at_ l).map Prod.fst).Nodup :=
  h.sublist ((List.filter_sublist l).map Prod.fst)

/-- Helper: a drained runtime id corresponds to a scheduled entry keyed at
the drained height. -/
theorem of_mem_drained_keys {at_ r : Nat}
    {sch : List ((Nat × Nat) × ScheduledRuntimeUpgrade)}
    (h : r ∈ (drainedAt at_ sch).map Prod.fst) : ∃ upd, ((at_, r), upd) ∈ sch := by
  obtain ⟨p, hmem, hfst⟩ := List.mem_map.mp h
  obtain ⟨e, he, heq⟩ := List.mem_map.mp hmem
  have hf := List.mem_filter.mp he
  have h11 : e.1.1 = at_ := by simpa using hf.2
  have h12 : e.1.2 = r := by
    have : e.1.2 = p.1 := by rw [← heq]
    rw [this, hfst]
  have hkey : e.1 = (at_, r) := Prod.ext h11 h12
  refine ⟨e.2, ?_⟩
  have : e = ((at_, r), e.2) := Prod.ext hkey rfl
  rw [← this]
  exact hf.1

/-- Helper: a schedule step preserves the invariant when it obeys the
no-overlap discipline, and never changes the registry. -/
theorem specInv_schedule {env : Env} {r : Nat} {s : RegistryState} {rid : Nat}
    {raw : List Nat} {cur : Nat} (hInv : SpecInv s r)
    (hdisc : rid = r → pendingFor s r = []) :
    SpecInv ((do_schedule_runtime_upgrade env s rid raw cur).1) r ∧
    ((do_schedule_runtime_upgrade env s rid raw cur).1).runtimeRegistry =
      s.runtimeRegistry := by
  refine ⟨?_, do_schedule_registry_eq env s rid raw cur⟩
  rcases do_schedule_cases env s rid raw cur with heq |
    ⟨obj, g, code, v, hreg, hdec, hcode, hver, hname, hgt, heq⟩
  · rw [heq]
    exact hInv
  · obtain ⟨hnd, hlen, hbound⟩ := hInv
    rw [heq]
    by_cases hr : rid = r
    · subst hr
      have hempty : s.scheduledRuntimeUpgrades.filter (fun e => e.1.2 = rid) = [] :=
        hdisc rfl
      have hpend : pendingFor (schedInsertState s (cur + env.domainRuntimeUpgradeDelay, rid)
          { raw_genesis := g, version := v, hash := env.hashOf code }) rid =
          [((cur + env.domainRuntimeUpgradeDelay, rid),
            { raw_genesis := g, version := v, hash := env.hashOf code })] :=
        filter_insertSched_self _ _ _ rid rfl hempty
      refine ⟨nodup_keys_insertSched _ _ _ hnd, ?_, ?_⟩
      · rw [hpend]
        simp
      · rw [hpend]
        intro e he obj₂ hobj₂
        simp only [List.mem_singleton] at he
        subst he
        have hobj₂' : s.runtimeRegistry rid = some obj₂ := hobj₂
        rw [hreg] at hobj₂'
        injection hobj₂' with hoo
        subst hoo
        simpa using hgt
    · have hkne : (cur + env.domainRuntimeUpgradeDelay, rid).2 ≠ r := hr
      have hpend : pendingFor (schedInsertState s (cur + env.domainRuntimeUpgradeDelay, rid)
          { raw_genesis := g, version := v, hash := env.hashOf code }) r =
          pendingFor s r :=
        filter_insertSched_ne _ _ _ r hkne
      refine ⟨nodup_keys_insertSched _ _ _ hnd, ?_, ?_⟩
      · rw [hpend]
        exact hlen
      · rw [hpend]
        intro e he obj₂ hobj₂
        have hobj₂' : s.runtimeRegistry r = some obj₂ := hobj₂
        exact hbound e he obj₂ hobj₂'

/-- Helper: an apply step preserves the invariant and never decreases the
stored spec version of r. -/
theorem specInv_applyAt {r : Nat} {s : RegistryState} {at_ : Nat} {s₁ : RegistryState}
    (hInv : SpecInv s r) (h : do_upgrade_runtimes s at_ = some s₁) :
    SpecInv s₁ r ∧
    ∀ a, specVersionAt s r = some a → ∃ b, specVersionAt s₁ r = some b ∧ a ≤ b := by
  obtain ⟨hnd, hlen, hbound⟩ := hInv
  unfold do_upgrade_runtimes at h
  obtain ⟨hfsched, hfnext, hflogs, hfevents⟩ := applyAllScheduled_frame h
  have hdnod := nodup_drainedAt_keys at_ s.scheduledRuntimeUpgrades hnd
  have hnd₁ : (s₁.scheduledRuntimeUpgrades.map Prod.fst).Nodup := by
    have hfs : s₁.scheduledRuntimeUpgrades = remainingAt at_ s.scheduledRuntimeUpgrades :=
      hfsched
    rw [hfs]
    exact nodup_keys_remainingAt at_ _ hnd
  have hpend₁ : pendingFor s₁ r =
      (pendingFor s r).filter (fun e => ¬ e.1.1 = at_) := by
    unfold pendingFor
    have hfs : s₁.scheduledRuntimeUpgrades = remainingAt at_ s.scheduledRuntimeUpgrades :=
      hfsched
    rw [hfs]
    unfold remainingAt
    rw [List.filter_filter, List.filter_filter]
    congr 1
    funext e
    rw [Bool.and_comm]
  rcases hp : pendingFor s r with _ | ⟨e, tail⟩
  · have hnotin : r ∉ (drainedAt at_ s.scheduledRuntimeUpgrades).map Prod.fst := by
      intro hmem
      obtain ⟨upd, hupd⟩ := of_mem_drained_keys hmem
      have hin : ((at_, r), upd) ∈ pendingFor s r :=
        List.mem_filter.mpr ⟨hupd, by simp⟩
      rw [hp] at hin
      simp at hin
    have hreg₁' := applyAllScheduled_registry_notin h hnotin
    have hreg₁ : s₁.runtimeRegistry r = s.runtimeRegistry r := hreg₁'
    refine ⟨⟨hnd₁, ?_, ?_⟩, ?_⟩
    · rw [hpend₁, hp]
      simp
    · rw [hpend₁, hp]
      intro e he
      simp at he
    · intro a ha
      refine ⟨a, ?_, le_refl a⟩
      unfold specVersionAt at ha ⊢
      rw [hreg₁]
      exact ha
  · have htail : tail = [] := by
      have hl := hlen
      rw [hp] at hl
      simp at hl
      exact hl
    subst htail
    have hemem : e ∈ pendingFor s r := by
      rw [hp]
      simp
    have hes : e ∈ s.scheduledRuntimeUpgrades := (List.mem_filter.mp hemem).1
    have he2 : e.1.2 = r := by simpa using (List.mem_filter.mp hemem).2
    by_cases hh : e.1.1 = at_
    · have hkey : e = ((at_, r), e.2) := Prod.ext (Prod.ext hh he2) rfl
      have hdm : (r, e.2) ∈ drainedAt at_ s.scheduledRuntimeUpgrades := by
        apply mem_drainedAt
        rw [← hkey]
        exact hes
      obtain ⟨obj, ho, hs₁⟩ := applyAllScheduled_registry_mem h hdnod hdm
      have ho' : s.runtimeRegistry r = some obj := ho
      have hlt : obj.version.spec_version < e.2.version.spec_version :=
        hbound e hemem obj ho'
      refine ⟨⟨hnd₁, ?_, ?_⟩, ?_⟩
      · rw [hpend₁, hp]
        simp [List.filter_cons, hh]
      · rw [hpend₁, hp]
        intro e₂ he₂
        simp [List.filter_cons, hh] at he₂
      · intro a ha
        unfold specVersionAt at ha ⊢
        have ha' : a = obj.version.spec_version := by
          rw [ho'] at ha
          simpa using ha.symm
        rw [hs₁]
        refine ⟨(upgradeObj obj e.2 at_).version.spec_version, by simp, ?_⟩
        have hversion : (upgradeObj obj e.2 at_).version = e.2.version := rfl
        rw [hversion, ha']
        omega
    · have hnotin : r ∉ (drainedAt at_ s.scheduledRuntimeUpgrades).map Prod.fst := by
        intro hmem
        obtain ⟨upd, hupd⟩ := of_mem_drained_keys hmem
        have hin : ((at_, r), upd) ∈ pendingFor s r :=
          List.mem_filter.mpr ⟨hupd, by simp⟩
        rw [hp] at hin
        simp at hin
        apply hh
        rw [← hin]
      have hreg₁' := applyAllScheduled_registry_notin h hnotin
      have hreg₁ : s₁.runtimeRegistry r = s.runtimeRegistry r := hreg₁'
      refine ⟨⟨hnd₁, ?_, ?_⟩, ?_⟩
      · rw [hpend₁, hp]
        simp [List.filter_cons, hh]
      · rw [hpend₁, hp]
        intro e₂ he₂ obj₂ hobj₂
        have he₂' : e₂ = e := by
          simpa [List.filter_cons, hh] using he₂
        subst he₂'
        rw [hreg₁] at hobj₂
        exact hbound _ hemem obj₂ hobj₂
      · intro a ha
        refine ⟨a, ?_, le_refl a⟩
        unfold specVersionAt at ha ⊢
        rw [hreg₁]
        exact ha

/-- C3 amended: the stored spec_version of a runtime is monotonically
non-decreasing along any sequence of do_schedule_runtime_upgrade and
do_upgrade_runtimes operations in which every schedule call for that
runtime happens while no upgrade for it is pending (the no-overlap
discipline); with overlapping pending upgrades the version can decrease, as
the counterexample shows. The invariant hypothesis holds in particular
right after registration, when nothing is pending. -/
theorem spec_version_monotonic_no_overlap (env : Env) (r : Nat) (ops : List RegistryOp) :
    ∀ s s₁ : RegistryState, SpecInv s r → NoOverlap env r s ops →
      runOps env s ops = some s₁ →
      ∀ a, specVersionAt s r = some a → ∃ b, specVersionAt s₁ r = some b ∧ a ≤ b := by
  induction ops with
  | nil =>
    intro s s₁ _ _ hrun a ha
    simp only [runOps, Option.some.injEq] at hrun
    subst hrun
    exact ⟨a, ha, le_refl a⟩
  | cons op rest ih =>
    intro s s₁ hInv hno hrun a ha
    unfold runOps at hrun
    rcases hs : stepOp env s op with _ | s₂ <;> simp only [hs] at hrun
    · exact absurd hrun (by simp)
    · cases hno with
      | cons hd hrest =>
        have hno₂ := hrest s₂ hs
        cases op with
        | schedule rid raw cur =>
          have hdisc : rid = r → pendingFor s r = [] := by
            intro hr
            subst hr
            exact hd raw cur rfl
          obtain ⟨hInv₂, hregeq⟩ :=
            @specInv_schedule env r s rid raw cur hInv hdisc
          have hs₂eq : (do_schedule_runtime_upgrade env s rid raw cur).1 = s₂ := by
            simpa [stepOp] using hs
          rw [hs₂eq] at hInv₂ hregeq
          have ha₂ : specVersionAt s₂ r = some a := by
            unfold specVersionAt
            rw [hregeq]
            exact ha
          exact ih s₂ s₁ hInv₂ hno₂ hrun a ha₂
        | applyAt at_ =>
          have h' : do_upgrade_runtimes s at_ = some s₂ := hs
          obtain ⟨hInv₂, hmono⟩ := specInv_applyAt hInv h'
          obtain ⟨b, hb, hab⟩ := hmono a ha
          obtain ⟨c, hc, hbc⟩ := ih s₂ s₁ hInv₂ hno₂ hrun b hb
          exact ⟨c, hc, le_trans hab hbc⟩

/-- Witness for the amended C3: a disciplined schedule-then-apply run from
regT1 (stored spec version 1) reaches a state whose stored spec version is
at least 1. -/
theorem spec_version_monotonic_no_overlap_witness :
    ∃ b, specVersionAt c3wFinal 0 = some b ∧ 1 ≤ b :=
  spec_version_monotonic_no_overlap envA 0
    [RegistryOp.schedule 0 [1] 100, RegistryOp.applyAt 110] regT1 c3wFinal
    (by
      refine ⟨by simp [regT1], by simp [pendingFor, regT1], ?_⟩
      intro e he
      simp [pendingFor, regT1] at he)
    (by
      refine NoOverlap.cons (fun raw cur _ => by simp [pendingFor, regT1]) ?_
      intro s₁ hs₁
      refine NoOverlap.cons (fun raw cur hcontra => RegistryOp.noConfusion hcontra) ?_
      intro s₂ hs₂
      exact NoOverlap.nil s₂)
    rfl 1 rfl

/-- Helper: execute_extrinsics always returns Ok — per-extrinsic failures
never abort the loop. -/
theorem execute_extrinsics_ok {St : Type} (o : ApiOracle St) :
    ∀ (xts : List Nat) (st : St), (execute_extrinsics o st xts).2 = .ok () := by
  intro xts
  induction xts with
  | nil => intro st; rfl
  | cons xt rest ih => intro st; exact ih ((applyExtrinsicInTx o st xt).1)

/-- Helper: the committed sublist is a subsequence of the queue, and
replaying it alone, with every application succeeding, reaches exactly the
state execute_extrinsics reaches. -/
theorem includedSub_spec {St : Type} (o : ApiOracle St) :
    ∀ (xts : List Nat) (st : St),
      (includedSub o st xts).Sublist xts ∧
      strictRun o st (includedSub o st xts) =
        some (execute_extrinsics o st xts).1 := by
  intro xts
  induction xts with
  | nil =>
    intro st
    exact ⟨List.nil_sublist _, rfl⟩
  | cons xt rest ih =>
    intro st
    rcases ha : o.applyExtrinsic st xt with ⟨st₁, outcome⟩
    cases outcome with
    | success =>
      have htx : applyExtrinsicInTx o st xt = (st₁, .ok ()) := by
        simp [applyExtrinsicInTx, ha]
      constructor
      · show (includedSub o st (xt :: rest)).Sublist (xt :: rest)
        simp only [includedSub, htx]
        exact (ih st₁).1.cons₂ xt
      · show strictRun o st (includedSub o st (xt :: rest)) =
          some (execute_extrinsics o st (xt :: rest)).1
        simp only [includedSub, htx, strictRun, ha, execute_extrinsics]
        exact (ih st₁).2
    | validity v =>
      have htx : applyExtrinsicInTx o st xt =
          (st, .error (BlockchainError.validity v)) := by
        simp [applyExtrinsicInTx, ha]
      constructor
      · show (includedSub o st (xt :: rest)).Sublist (xt :: rest)
        simp only [includedSub, htx]
        exact (ih st).1.cons xt
      · show strictRun o st (includedSub o st (xt :: rest)) =
          some (execute_extrinsics o st (xt :: rest)).1
        simp only [includedSub, htx, execute_extrinsics]
        exact (ih st).2
    | execError err =>
      have htx : applyExtrinsicInTx o st xt =
          (st, .error (BlockchainError.execution err)) := by
        simp [applyExtrinsicInTx, ha]
      constructor
      · show (includedSub o st (xt :: rest)).Sublist (xt :: rest)
        simp only [includedSub, htx]
        exact (ih st).1.cons xt
      · show strictRun o st (includedSub o st (xt :: rest)) =
          some (execute_extrinsics o st (xt :: rest)).1
        simp only [includedSub, htx, execute_extrinsics]
        exact (ih st).2

/-- C1: execute_extrinsics (the transaction loop shared by build and
prepare_storage_changes_before_finalize_block) applies the queue in order,
each extrinsic inside its own nested transaction scope; a failed extrinsic
is rolled back and the loop continues, so the loop itself always returns
Ok; the extrinsics that committed form a subsequence of the queue, in
original order, and replaying exactly that subsequence (every application
succeeding) reproduces the final api state — the state delta reflects
exactly the individually successful extrinsics. When finalize_block and
into_storage_changes then succeed, build succeeds and returns that
delta. -/
theorem execute_extrinsics_subset {St : Type} (o : ApiOracle St) (bb : BlockBuilderM St)
    (st₂ : St) (header changes : Nat)
    (hfin : o.finalizeBlock (execute_extrinsics o bb.apiState bb.extrinsics).1 =
      some (st₂, header))
    (hcol : o.intoStorageChanges st₂ = some changes) :
    (execute_extrinsics o bb.apiState bb.extrinsics).2 = .ok () ∧
    (includedSub o bb.apiState bb.extrinsics).Sublist bb.extrinsics ∧
    strictRun o bb.apiState (includedSub o bb.apiState bb.extrinsics) =
      some (execute_extrinsics o bb.apiState bb.extrinsics).1 ∧
    BlockBuilder.build o bb =
      .ok { blockHeader := header, blockExtrinsics := bb.extrinsics,
            storage_changes := changes,
            proof := bb.recorder.map (fun _ => o.proofOf st₂) } := by
  refine ⟨execute_extrinsics_ok o bb.extrinsics bb.apiState,
    (includedSub_spec o bb.extrinsics bb.apiState).1,
    (includedSub_spec o bb.extrinsics bb.apiState).2, ?_⟩
  unfold BlockBuilder.build
  rw [execute_extrinsics_ok o bb.extrinsics bb.apiState, hfin]
  simp [collect_storage_changes, hcol]

/-- Witness for C1: on the queue [0, 1, 2] from state 0 under oracleC,
extrinsic 0 fails validity and is skipped while 1 and 2 commit; build
succeeds and returns the delta of the final state 3. -/
theorem execute_extrinsics_subset_witness :
    (execute_extrinsics oracleC bbC1.apiState bbC1.extrinsics).2 = .ok () ∧
    (includedSub oracleC bbC1.apiState bbC1.extrinsics).Sublist bbC1.extrinsics ∧
    strictRun oracleC bbC1.apiState (includedSub oracleC bbC1.apiState bbC1.extrinsics) =
      some (execute_extrinsics oracleC bbC1.apiState bbC1.extrinsics).1 ∧
    BlockBuilder.build oracleC bbC1 =
      .ok { blockHeader := 6, blockExtrinsics := bbC1.extrinsics,
            storage_changes := 9,
            proof := bbC1.recorder.map (fun _ => oracleC.proofOf 3) } :=
  execute_extrinsics_subset oracleC bbC1 3 6 9 rfl rfl

/-- Helper: while the target index lies within the remaining queue, the
prepare loop strictly replays the extrinsics before the target and collects
the changes, propagating the first failure. -/
theorem prepareLoop_in_range {St : Type} (o : ApiOracle St) (total ei : Nat) :
    ∀ (xts : List Nat) (st : St) (i : Nat), i ≤ ei → ei - i < xts.length →
      prepareLoop o total ei st xts i =
        match strictReplayExc o st (xts.take (ei - i)) with
        | .ok st₁ => collect_storage_changes o st₁
        | .error err => .error err := by
  intro xts
  induction xts with
  | nil =>
    intro st i hle hlt
    simp at hlt
  | cons xt rest ih =>
    intro st i hle hlt
    by_cases hi : i = ei
    · subst hi
      simp [prepareLoop, Nat.sub_self, strictReplayExc]
    · have hilt : i < ei := lt_of_le_of_ne hle hi
      have h1 : ei - i = (ei - (i + 1)) + 1 := by omega
      rw [show prepareLoop o total ei st (xt :: rest) i =
          (if i = ei then collect_storage_changes o st
           else
             match applyExtrinsicInTx o st xt with
             | (st₁, .ok _) => prepareLoop o total ei st₁ rest (i + 1)
             | (_, .error err) => .error err) from rfl]
      rw [if_neg hi, h1, List.take_succ_cons]
      rcases htx : applyExtrinsicInTx o st xt with ⟨st₁, r⟩
      cases r with
      | ok u =>
        rw [show strictReplayExc o st (xt :: rest.take (ei - (i + 1))) =
            strictReplayExc o st₁ (rest.take (ei - (i + 1))) by
          simp [strictReplayExc, htx]]
        exact ih st₁ (i + 1) (by omega) (by simp at hlt ⊢; omega)
      | error err =>
        rw [show strictReplayExc o st (xt :: rest.take (ei - (i + 1))) =
            .error err by simp [strictReplayExc, htx]]

/-- Helper: when the target index lies at or past the end of the remaining
queue, the prepare loop strictly replays everything and then reports the
invalid index, propagating the first failure instead when one occurs. -/
theorem prepareLoop_out_of_range {St : Type} (o : ApiOracle St) (total ei : Nat) :
    ∀ (xts : List Nat) (st : St) (i : Nat), i + xts.length ≤ ei →
      prepareLoop o total ei st xts i =
        match strictReplayExc o st xts with
        | .ok _ => .error (BlockchainError.invalidIndex ei total)
        | .error err => .error err := by
  intro xts
  induction xts with
  | nil =>
    intro st i _
    simp [prepareLoop, strictReplayExc]
  | cons xt rest ih =>
    intro st i hle
    have hi : i ≠ ei := by
      simp at hle
      omega
    rw [show prepareLoop o total ei st (xt :: rest) i =
        (if i = ei then collect_storage_changes o st
         else
           match applyExtrinsicInTx o st xt with
           | (st₁, .ok _) => prepareLoop o total ei st₁ rest (i + 1)
           | (_, .error err) => .error err) from rfl]
    rw [if_neg hi]
    rcases htx : applyExtrinsicInTx o st xt with ⟨st₁, r⟩
    cases r with
    | ok u =>
      rw [show strictReplayExc o st (xt :: rest) = strictReplayExc o st₁ rest by
        simp [strictReplayExc, htx]]
      exact ih st₁ (i + 1) (by simp at hle ⊢; omega)
    | error err =>
      rw [show strictReplayExc o st (xt :: rest) = .error err by
        simp [strictReplayExc, htx]]

/-- C5 amended: prepare_storage_changes_before(index) replays the
extrinsics before the target index, each in its own commit/rollback scope,
but — unlike the full build loop — the first failing extrinsic aborts the
call with its error instead of being skipped; on a fully successful replay
it returns the state delta at that point without finalizing. When the index
is at or past the queue length, the call fails: with the invalid-index
error when the whole replay succeeds, or with the first replay failure
otherwise. -/
theorem prepare_storage_changes_before_spec {St : Type} (o : ApiOracle St)
    (bb : BlockBuilderM St) (ei : Nat) :
    (ei < bb.extrinsics.length →
      prepare_storage_changes_before o bb ei =
        match strictReplayExc o bb.apiState (bb.extrinsics.take ei) with
        | .ok st₁ => collect_storage_changes o st₁
        | .error err => .error err) ∧
    (bb.extrinsics.length ≤ ei →
      prepare_storage_changes_before o bb ei =
        match strictReplayExc o bb.apiState bb.extrinsics with
        | .ok _ => .error (BlockchainError.invalidIndex ei bb.extrinsics.length)
        | .error err => .error err) := by
  constructor
  · intro hlt
    unfold prepare_storage_changes_before
    have h := prepareLoop_in_range o bb.extrinsics.length ei bb.extrinsics bb.apiState 0
      (Nat.zero_le ei) (by simpa using hlt)
    simpa using h
  · intro hge
    unfold prepare_storage_changes_before
    exact prepareLoop_out_of_range o bb.extrinsics.length ei bb.extrinsics bb.apiState 0
      (by simpa using hge)

/-- Counterexample for C5 as stated: under oracleC with queue [0, 1] from
state 0, the call with index 1 hits the invalid extrinsic 0 and returns its
validity error — it does not skip the failure and return a state delta as
the claim describes. -/
theorem prepare_storage_changes_before_counterexample :
    prepare_storage_changes_before oracleC bbC 1 =
      .error (BlockchainError.validity 7) ∧
    ∀ changes, prepare_storage_changes_before oracleC bbC 1 ≠ .ok changes := by
  refine ⟨rfl, ?_⟩
  intro changes h
  rw [show prepare_storage_changes_before oracleC bbC 1 =
      .error (BlockchainError.validity 7) from rfl] at h
  exact Except.noConfusion h

/-- Witness for the amended C5: with queue [1, 2, 3], index 2 replays the
first two extrinsics and collects the changes; index 5 is past the end and
reports the invalid index after a fully successful replay. -/
theorem prepare_storage_changes_before_spec_witness :
    (prepare_storage_changes_before oracleC bbW5 2 =
      match strictReplayExc oracleC bbW5.apiState (bbW5.extrinsics.take 2) with
      | .ok st₁ => collect_storage_changes oracleC st₁
      | .error err => .error err) ∧
    (prepare_storage_changes_before oracleC bbW5 5 =
      match strictReplayExc oracleC bbW5.apiState bbW5.extrinsics with
      | .ok _ => .error (BlockchainError.invalidIndex 5 bbW5.extrinsics.length)
      | .error err => .error err) :=
  ⟨(prepare_storage_changes_before_spec oracleC bbW5 2).1 (by decide),
   (prepare_storage_changes_before_spec oracleC bbW5 5).2 (by decide)⟩

/-- Helper: the recorder created by BlockBuilder.new is present exactly
when proof recording was requested. -/
theorem new_recorder {St : Type} {o : ApiOracle St} {st0 : St} {record_proof : RecordProof}
    {xts : List Nat} {mid : Option Nat} {bb : BlockBuilderM St}
    (h : BlockBuilder.new o st0 record_proof xts mid = .ok bb) :
    bb.recorder = if record_proof.yes then some () else none := by
  unfold BlockBuilder.new at h
  rcases hinit : o.initializeBlock st0 with _ | st₁ <;> simp only [hinit] at h
  · exact absurd h (by simp)
  · cases mid with
    | none =>
      simp only [Except.ok.injEq] at h
      rw [← h]
    | some d =>
      rcases hci : create_inherents o st₁ d with err | exts <;> simp only [hci] at h
      · exact absurd h (by simp)
      · simp only [Except.ok.injEq] at h
        rw [← h]

/-- Helper: a successful build extracted its optional proof from the
recorder, mapped over the post-finalization api state. -/
theorem build_ok_proof {St : Type} {o : ApiOracle St} {bb : BlockBuilderM St}
    {blt : BuiltBlockM} (h : BlockBuilder.build o bb = .ok blt) :
    ∃ st₂ header,
      o.finalizeBlock (execute_extrinsics o bb.apiState bb.extrinsics).1 =
        some (st₂, header) ∧
      blt.proof = bb.recorder.map (fun _ => o.proofOf st₂) := by
  unfold BlockBuilder.build at h
  rw [execute_extrinsics_ok o bb.extrinsics bb.apiState] at h
  rcases hfin : o.finalizeBlock (execute_extrinsics o bb.apiState bb.extrinsics).1
    with _ | p <;> simp only [hfin] at h
  · exact absurd h (by simp)
  · obtain ⟨st₂, header⟩ := p
    rcases hcol : collect_storage_changes o st₂ with err | changes <;> simp only [hcol] at h
    · exact absurd h (by simp)
    · refine ⟨st₂, header, rfl, ?_⟩
      simp only [Except.ok.injEq] at h
      rw [← h]

/-- C8: for a builder constructed by BlockBuilder.new, a successful build
returns a proof exactly when the builder was constructed with
RecordProof.Yes; with recording disabled the proof is absent. -/
theorem built_proof_iff_recording {St : Type} (o : ApiOracle St) (st0 : St)
    (record_proof : RecordProof) (xts : List Nat) (mid : Option Nat)
    (bb : BlockBuilderM St) (blt : BuiltBlockM)
    (hnew : BlockBuilder.new o st0 record_proof xts mid = .ok bb)
    (hbuild : BlockBuilder.build o bb = .ok blt) :
    blt.proof.isSome = true ↔ record_proof = RecordProof.Yes := by
  obtain ⟨st₂, header, hfin, hproof⟩ := build_ok_proof hbuild
  have hrec := new_recorder hnew
  rw [hproof, hrec]
  cases record_proof <;> simp [RecordProof.yes]

/-- Witness for C8: a concrete builder with recording on yields a proof,
and the equivalence instantiates to a truth. -/
theorem built_proof_iff_recording_witness :
    (({ blockHeader := 202, blockExtrinsics := [1], storage_changes := 303,
        proof := some 102 } : BuiltBlockM)).proof.isSome = true ↔
      RecordProof.Yes = RecordProof.Yes :=
  built_proof_iff_recording oracleC 0 RecordProof.Yes [1] none
    { extrinsics := [1], apiState := 100, recorder := some () }
    { blockHeader := 202, blockExtrinsics := [1], storage_changes := 303,
      proof := some 102 } rfl rfl

/-- Helper: pushing each element of a list to the front of a queue, one at
a time, leaves the list reversed in front of the queue. -/
theorem pushFrontAll_eq_reverse_append :
    ∀ l q : List Nat, pushFrontAll l q = l.reverse ++ q := by
  intro l
  induction l with
  | nil => intro q; rfl
  | cons a t ih =>
    intro q
    have h1 : pushFrontAll (a :: t) q = pushFrontAll t (a :: q) := rfl
    rw [h1, ih]
    simp

/-- C10: when BlockBuilder.new synthesizes inherent extrinsics, each is
pushed to the front of the queue one at a time, so the inherents appear in
the reverse of the order the runtime returned them, while still all
preceding every caller-supplied extrinsic. -/
theorem new_prepends_inherents_reversed {St : Type} (o : ApiOracle St) (st0 st₁ : St)
    (record_proof : RecordProof) (xts inhs : List Nat) (inherent_data : Nat)
    (hinit : o.initializeBlock st0 = some st₁)
    (hinh : o.inherentExtrinsics st₁ inherent_data = some inhs) :
    BlockBuilder.new o st0 record_proof xts (some inherent_data) =
      .ok { extrinsics := inhs.reverse ++ xts
            apiState := st₁
            recorder := if record_proof.yes then some () else none } := by
  simp [BlockBuilder.new, hinit, create_inherents, hinh, pushFrontAll_eq_reverse_append]

/-- Witness for C10: with the runtime returning the inherents [1, 2] and
the caller supplying [3], the built queue is [2, 1, 3] — the two inherents
reversed, both ahead of the user extrinsic. -/
theorem new_prepends_inherents_reversed_witness :
    BlockBuilder.new oracleC 0 RecordProof.No [3] (some 1) =
      .ok { extrinsics := [2, 1, 3], apiState := 100, recorder := none } :=
  new_prepends_inherents_reversed oracleC 0 100 RecordProof.No [3] [1, 2] 1 rfl rfl
